import Mathlib

/-!
Shallow embedding of the item-resolution pipeline of `t-item.go`
(package main of the service-wiki repository).

Strings are modelled as `List Char` (`GoStr`); all inputs handled by the
repository are ASCII, where Go's byte-wise string operations coincide with
the character-wise operations modelled here.  Go `float64` statistic values
are modelled as `Option ℚ` (`sql.NullFloat64`: `none` = invalid/NULL); all
numeric tokens in play are short decimals, on which IEEE semantics and exact
rational semantics agree.  Database access and HTTP access are modelled
explicitly: query results and response bodies are passed in as values, and
`none` marks a failed transport (in Go: `http.Get` returned a non-nil error
and a nil response).
-/

/-- Go strings, as character lists. -/
abbrev GoStr := List Char

/-- Turn a Lean string literal into a `GoStr`. -/
def gs (s : String) : GoStr := s.data

/-- Model of `strings.ToLower` (ASCII). -/
def lowerL (s : GoStr) : GoStr := s.map Char.toLower

/-- Model of `strings.ToUpper` (ASCII). -/
def upperL (s : GoStr) : GoStr := s.map Char.toUpper

/-- Whitespace recognised by Go's `strings.TrimSpace` (ASCII range). -/
def isGoSpace (c : Char) : Bool :=
  c = ' ' || c = '\t' || c = '\n' || c = '\r' || c = '\x0b' || c = '\x0c'

/-- Model of `strings.TrimSpace`. -/
def trimL (s : GoStr) : GoStr :=
  ((s.dropWhile isGoSpace).reverse.dropWhile isGoSpace).reverse

/-- `containsSub hay needle` models `strings.Contains hay needle`. -/
def containsSub (hay needle : GoStr) : Bool :=
  needle.isPrefixOf hay ||
    match hay with
    | [] => false
    | _ :: tl => containsSub tl needle

/-- Model of `stringutil.CaseInsenstiveContains s sub` for one needle:
case-insensitive substring test. -/
def ciContains (s sub : GoStr) : Bool :=
  containsSub (lowerL s) (lowerL sub)

/-- Model of the variadic `stringutil.CaseInsenstiveContains s subs...`:
true when any needle occurs case-insensitively. -/
def ciContainsAny (s : GoStr) (subs : List GoStr) : Bool :=
  subs.any fun sub => ciContains s sub

/-- Recursion core of `replaceAllL`; every step consumes at least one
character, so the fuel (initialised to the string length) is never
exhausted and merely makes the recursion structural. -/
def replaceAllAux (old new : GoStr) : ℕ → GoStr → GoStr
  | _, [] => []
  | 0, s => s
  | fuel + 1, c :: cs =>
    if old ≠ [] ∧ old.isPrefixOf (c :: cs) then
      new ++ replaceAllAux old new fuel (cs.drop (old.length - 1))
    else
      c :: replaceAllAux old new fuel cs

/-- Model of `strings.Replace old -> new, n = -1` (replace all, left to
right, non-overlapping, the replacement is not rescanned).  Go never calls
it with an empty `old` in this repository; that case is the identity here. -/
def replaceAllL (old new : GoStr) (s : GoStr) : GoStr :=
  replaceAllAux old new s.length s

/-- Model of `strings.Split s sep` for a single-character separator:
always returns at least one element. -/
def splitOnCharL (sep : Char) : GoStr → List GoStr
  | [] => [[]]
  | c :: cs =>
    if c = sep then [] :: splitOnCharL sep cs
    else
      match splitOnCharL sep cs with
      | h :: t => (c :: h) :: t
      | [] => [[c]]

/-- Digits of a decimal numeral to a natural number. -/
def digitsToNat (l : GoStr) : ℕ := l.foldl (fun a c => a * 10 + (c.toNat - 48)) 0

/-- Model of `strconv.ParseFloat` on the plain decimal forms produced by the
wiki pages (optional sign, integer digits, optional fractional part).  Exotic
accepted forms of Go (exponents, hex floats, inf, NaN, digit underscores)
never occur in this repository's token stream and are modelled as failures,
exactly like every other malformed token. -/
def parseGoFloat (s : GoStr) : Option ℚ :=
  let signed : Bool × GoStr :=
    match s with
    | '+' :: r => (false, r)
    | '-' :: r => (true, r)
    | r => (false, r)
  let neg := signed.1
  let rest := signed.2
  let ip := rest.takeWhile Char.isDigit
  let rest1 := rest.drop ip.length
  match rest1 with
  | [] =>
    if ip = [] then none
    else some (if neg then -(mkRat (digitsToNat ip) 1) else mkRat (digitsToNat ip) 1)
  | '.' :: r2 =>
    let fp := r2.takeWhile Char.isDigit
    if r2.drop fp.length ≠ [] then none
    else if ip = [] ∧ fp = [] then none
    else
      let q := mkRat (digitsToNat (ip ++ fp)) (10 ^ fp.length)
      some (if neg then -q else q)
  | _ => none

/-- A `(code, value, effect)` statistic; `value` models `sql.NullFloat64`
(`none` = invalid). -/
structure Statistic where
  code : GoStr
  value : Option ℚ
  effect : GoStr
deriving DecidableEq

/-- A `(name, uri, restriction)` linked effect. -/
structure Effect where
  name : GoStr
  uri : GoStr
  restriction : GoStr
deriving DecidableEq

/-- The `Item` struct of `t-item.go`. -/
structure Item where
  id : ℤ
  name : GoStr
  displayName : GoStr
  imageSrc : GoStr
  price : ℚ
  statistics : List Statistic
  effects : List Effect
deriving DecidableEq

/-- A fresh zero-value item. -/
def item0 : Item := ⟨0, [], [], [], 0, [], []⟩

/-!
The text classifier: `assignStatistic` of `t-item.go` (lines 243-325).
The `if / else if` chain is split into one definition per branch, in the
exact source order; `classifyLine` strings them together with the source's
guard conditions.  `.crash` models a Go runtime panic (index out of range
on `parts[1]`).
-/

/-- Guard keywords of the affinity branch (source line 255), verbatim. -/
def affinityKeywords : List GoStr :=
  [gs "nodrop", gs "quest item", gs "lore item", gs "magic item", gs "temporary",
   gs "no drop", gs "no rent", gs "no trade", gs "norent", gs "notrade", gs "expendable"]

/-- Guard keywords of the labeled-text branch (source line 259), verbatim. -/
def textLabelKeywords : List GoStr :=
  [gs "slot:", gs "class:", gs "race:", gs "size:", gs "skill:"]

/-- Guard keywords of the labeled-numeric branch (source line 264), verbatim. -/
def numericKeywords : List GoStr :=
  [gs "sv fire", gs "sv cold", gs "sv poison", gs "sv magic", gs "sv disease",
   gs "dmg:", gs "ac:", gs "hp:", gs "dex:", gs "agi:", gs "sta:", gs "str:",
   gs "mana:", gs "cha:", gs "atk:", gs "wis:", gs "int:", gs "endr:", gs "wt:",
   gs "atk delay:", gs "haste:", gs "instrument:", gs "instruments:", gs "range:",
   gs "charges:", gs "weight reduction:", gs "capacity:"]

/-- Guard keywords of the effect branch (source line 290), verbatim. -/
def effectKeywords : List GoStr :=
  [gs "<a href=", gs "effect:", gs "casting time:", gs "combat", gs "at level"]

/-- Outcome of classifying one line: a statistic candidate (still subject to
the non-empty-code guard at source line 320), an effect (the branch returns
before that guard), or a runtime panic. -/
inductive LineClass where
  | stat (s : Statistic)
  | eff (e : Effect)
  | crash
deriving DecidableEq

/-- Source lines 251-254: the `size capacity:` branch.  The guard keyword
contains a colon, so `parts` always has a second element here. -/
def sizeCapacityBranch (part : GoStr) : LineClass :=
  match splitOnCharL ':' part with
  | _ :: p1 :: _ => .stat ⟨gs "size capacity", none, p1⟩
  | _ => .crash

/-- Source lines 255-258: the affinity branch. -/
def affinityBranch (part : GoStr) : LineClass :=
  .stat ⟨gs "AFFINITY", none, upperL part⟩

/-- Source lines 259-263: the labeled-text branch (`slot:`, `class:`, ...).
Every guard keyword contains a colon, so `parts` has a second element. -/
def textLabelBranch (part : GoStr) : LineClass :=
  match splitOnCharL ':' part with
  | p0 :: p1 :: _ => .stat ⟨upperL (trimL p0), none, upperL (trimL p1)⟩
  | _ => .crash

/-- Source lines 264-289: the labeled-numeric branch.  The `sv fire` ...
`sv disease` guard keywords contain no colon, so `parts[1]` can be out of
range (`.crash`).  Note the sign/percent handling is an `else if` chain:
`%` is stripped only when the token holds neither `+` nor `-`; a `+` (or a
`-`) is removed everywhere in the token; a parse failure leaves the value
NULL but the statistic is still produced (with its code set). -/
def mkNumericStat (p0 p1 : GoStr) : Statistic :=
  let tokSign : GoStr × Bool :=
    if ciContains p1 (gs "+") then (trimL (replaceAllL (gs "+") [] p1), true)
    else if ciContains p1 (gs "-") then (trimL (replaceAllL (gs "-") [] p1), false)
    else if ciContains p1 (gs "%") then (trimL (replaceAllL (gs "%") [] p1), true)
    else (p1, true)
  let code := upperL (trimL p0)
  match parseGoFloat (trimL tokSign.1) with
  | none => ⟨code, none, []⟩
  | some v => ⟨code, some (if tokSign.2 then v else -v), []⟩

/-- The dispatch of the labeled-numeric branch on the colon split. -/
def numericBranch (part : GoStr) : LineClass :=
  match splitOnCharL ':' part with
  | p0 :: p1 :: _ => .stat (mkNumericStat p0 p1)
  | _ => .crash

/-- One `key="value"` attribute pair match of the regex
`([A-Za-z0-9]+="(.*?)")` attempted at the head of `s`: returns the full
matched text and how many characters of the tail (after the head) it spans.
The lazy group stops at the first quote; a dot cannot cross a newline. -/
def tryAttrAt (s : GoStr) : Option (GoStr × ℕ) :=
  let run := s.takeWhile fun c => c.isAlpha || c.isDigit
  if run = [] then none
  else
    match s.drop run.length with
    | '=' :: '"' :: r2 =>
      let v := r2.takeWhile fun c => c ≠ '"'
      if v.contains '\n' then none
      else
        match r2.drop v.length with
        | '"' :: _ => some (run ++ '=' :: '"' :: (v ++ ['"']), run.length + 2 + v.length)
        | _ => none
    | _ => none

/-- Recursion core of `findAttrPairs`; the fuel (string length) only makes
the recursion structural and is never exhausted. -/
def findAttrPairsAux : ℕ → GoStr → List GoStr
  | _, [] => []
  | 0, _ => []
  | fuel + 1, c :: rest =>
    match tryAttrAt (c :: rest) with
    | some (m, k) => m :: findAttrPairsAux fuel (rest.drop k)
    | none => findAttrPairsAux fuel rest

/-- Model of `regexp("([A-Za-z0-9]+=\x22(.*?)\x22")").FindAllString(part, -1)`:
all leftmost non-overlapping `key="value"` pairs. -/
def findAttrPairs (s : GoStr) : List GoStr := findAttrPairsAux s.length s

/-- Index just past the first `</a>` in `s`, provided no newline comes
first (the lazy dot of the anchor regex cannot cross a newline). -/
def findCloseA : GoStr → Option ℕ
  | [] => none
  | c :: rest =>
    if (gs "</a>").isPrefixOf (c :: rest) then some 4
    else if c = '\n' then none
    else (findCloseA rest).map (· + 1)

/-- Recursion core of `removeAnchors`; the fuel (string length) only makes
the recursion structural and is never exhausted. -/
def removeAnchorsAux : ℕ → GoStr → GoStr
  | _, [] => []
  | 0, s => s
  | fuel + 1, c :: rest =>
    if (gs "<a").isPrefixOf (c :: rest) then
      match findCloseA (rest.drop 1) with
      | some k => removeAnchorsAux fuel (rest.drop (1 + k))
      | none => c :: removeAnchorsAux fuel rest
    else c :: removeAnchorsAux fuel rest

/-- Model of `regexp("((<a)(.*?)(</a>))").ReplaceAllString(part, "")`:
delete every leftmost non-overlapping `<a ... </a>` span. -/
def removeAnchors (s : GoStr) : GoStr := removeAnchorsAux s.length s

/-- Source lines 290-315: the effect branch.  Strips the (case-sensitive)
`Effect:` label, scans `key="value"` pairs for an href-like key (uri) and a
title-like key (name), and removes anchor markup to form the restriction.
The branch returns before the statistics guard, so only an effect is added. -/
def effectBranch (part : GoStr) : Effect :=
  let p := trimL (replaceAllL (gs "Effect:") [] part)
  let e : Effect :=
    (findAttrPairs p).foldl
      (fun e pr =>
        let pr := replaceAllL (gs "\"") [] pr
        if ciContains pr (gs "href") then { e with uri := replaceAllL (gs "href=") [] pr }
        else if ciContains pr (gs "title") then { e with name := replaceAllL (gs "title=") [] pr }
        else e)
      ⟨[], [], []⟩
  { e with restriction := trimL (removeAnchors p) }

/-- The `if / else if` chain of `assignStatistic` (source lines 251-318),
in source order; the final `else` leaves the statistic at its zero value
(empty code), which the guard at line 320 then discards. -/
def classifyLine (part : GoStr) : LineClass :=
  if ciContainsAny part [gs "size capacity:"] then sizeCapacityBranch part
  else if ciContainsAny part affinityKeywords then affinityBranch part
  else if ciContainsAny part textLabelKeywords then textLabelBranch part
  else if ciContainsAny part numericKeywords then numericBranch part
  else if ciContainsAny part effectKeywords then .eff (effectBranch part)
  else .stat ⟨[], none, []⟩

/-- `assignStatistic` (source lines 243-325): `none` models a Go panic;
otherwise the item with the classified statistic or effect appended.
Statistics with an empty code are discarded (source lines 320-324). -/
def assignStatistic (i : Item) (part : GoStr) : Option Item :=
  if trimL part = [] then some i
  else
    match classifyLine part with
    | .crash => none
    | .eff e => some { i with effects := i.effects ++ [e] }
    | .stat s =>
      if s.code ≠ [] then some { i with statistics := i.statistics ++ [s] }
      else some i

/-- A row of the `statistics` table. -/
structure StatRow where
  itemId : ℤ
  code : GoStr
  value : Option ℚ
  effect : GoStr
deriving DecidableEq

/-- `saveStats` (source lines 412-430): one batched multi-row insert of all
of the item's statistics, each row carrying the resolved item id.  The rows
of that insert are exactly the statistics list, in order. -/
def saveStats (id : ℤ) (stats : List Statistic) : List StatRow :=
  stats.map fun s => ⟨id, s.code, s.value, s.effect⟩

/-!
The spell fallback detector: `extractSpellDataFromHttpBody` of `t-item.go`
(lines 182-241), plus the regex scanners it relies on.
-/

/-- The class-name alternatives of the spell-detection regex `(?i)>(...)<`,
verbatim and in alternation order (source line 133 and line 193). -/
def classNames : List GoStr :=
  [gs "magician", gs "necromancer", gs "paladin", gs "warrior", gs "druid",
   gs "enchanter", gs "cleric", gs "shadowknight", gs "monk", gs "shaman",
   gs "wizard", gs "bard", gs "rogue", gs "ranger"]

/-- Try to match `name<` for one alternative (first in alternation order
wins) at the head of `s`, the text just after a `>`: returns the captured
token in its original casing and its span in `s` including the closing `<`. -/
def tryClassAt (s : GoStr) : Option (GoStr × ℕ) :=
  classNames.findSome? fun nm =>
    if lowerL (s.take nm.length) = nm ∧ (s.drop nm.length).head? = some '<' then
      some (s.take nm.length, nm.length + 1)
    else none

/-- Recursion core of `findClassMatches`; the fuel (string length) only
makes the recursion structural and is never exhausted. -/
def findClassMatchesAux : ℕ → GoStr → List GoStr
  | _, [] => []
  | 0, _ => []
  | fuel + 1, c :: rest =>
    if c = '>' then
      match tryClassAt rest with
      | some (tok, k) => tok :: findClassMatchesAux fuel (rest.drop k)
      | none => findClassMatchesAux fuel rest
    else findClassMatchesAux fuel rest

/-- Model of `regexp("(?i)>(magician|...|ranger)<").FindAllStringSubmatch`:
the captured class tokens (original casing), leftmost, non-overlapping. -/
def findClassMatches (body : GoStr) : List GoStr :=
  findClassMatchesAux body.length body

/-- Recursion core of `findLevelMatches`; the fuel (string length) only
makes the recursion structural and is never exhausted. -/
def findLevelMatchesAux : ℕ → GoStr → List GoStr
  | _, [] => []
  | 0, _ => []
  | fuel + 1, c :: rest =>
    if lowerL ((c :: rest).take 5) = gs "level" then
      let after := (c :: rest).drop 5
      let ws := after.takeWhile fun ch => ch = ' ' || ch = '\n'
      let ds := (after.drop ws.length).takeWhile Char.isDigit
      if ws ≠ [] ∧ ds ≠ [] then
        ds :: findLevelMatchesAux fuel ((after.drop ws.length).drop ds.length)
      else findLevelMatchesAux fuel rest
    else findLevelMatchesAux fuel rest

/-- Model of `regexp("(?i)level[ \n]+([0-9]+)").FindAllStringSubmatch`: the
captured digit groups, leftmost, non-overlapping, greedy quantifiers. -/
def findLevelMatches (body : GoStr) : List GoStr :=
  findLevelMatchesAux body.length body

/-- Index just past the first `"` in `s`, provided no newline comes first
(the lazy dot of the image regex cannot cross a newline). -/
def findQuote : GoStr → Option ℕ
  | [] => none
  | c :: rest =>
    if c = '"' then some 1
    else if c = '\n' then none
    else (findQuote rest).map (· + 1)

/-- Model of `regexp("(?i)(/images/)((.*?)+ ?\x22)").FindStringSubmatch`:
the first span from a case-insensitive `/images/` through the next double
quote on the same line; the full match, in its original casing. -/
def findImageSrc : GoStr → Option GoStr
  | [] => none
  | c :: rest =>
    if lowerL ((c :: rest).take 8) = gs "/images/" then
      match findQuote ((c :: rest).drop 8) with
      | some k => some ((c :: rest).take (8 + k))
      | none => findImageSrc rest
    else findImageSrc rest

/-- Source lines 206-214: concatenate the class tokens, each paired with its
level capture when one exists (`"tok (lvl),"`), else followed by `", "`. -/
def buildClasses (cm lm : List GoStr) : GoStr :=
  cm.enum.foldl
    (fun acc p =>
      acc ++ p.2 ++
        (match lm.get? p.1 with
         | some lvl => gs " (" ++ lvl ++ gs "),"
         | none => gs ", "))
    []

/-- Source lines 216-229: the fourteen sequential lowercase-then-replace
steps mapping class names to their three-letter abbreviations. -/
def classAbbrev (s : GoStr) : GoStr :=
  let s := replaceAllL (gs "bard") (gs "BRD") (lowerL s)
  let s := replaceAllL (gs "cleric") (gs "CLR") (lowerL s)
  let s := replaceAllL (gs "enchanter") (gs "ENC") (lowerL s)
  let s := replaceAllL (gs "shadowknight") (gs "SHD") (lowerL s)
  let s := replaceAllL (gs "paladin") (gs "PAL") (lowerL s)
  let s := replaceAllL (gs "magician") (gs "MAG") (lowerL s)
  let s := replaceAllL (gs "necromancer") (gs "NEC") (lowerL s)
  let s := replaceAllL (gs "warrior") (gs "WAR") (lowerL s)
  let s := replaceAllL (gs "rogue") (gs "ROG") (lowerL s)
  let s := replaceAllL (gs "ranger") (gs "RNG") (lowerL s)
  let s := replaceAllL (gs "druid") (gs "DRU") (lowerL s)
  let s := replaceAllL (gs "monk") (gs "MNK") (lowerL s)
  let s := replaceAllL (gs "wizard") (gs "WIZ") (lowerL s)
  let s := replaceAllL (gs "shaman") (gs "SHM") (lowerL s)
  s

/-- `extractSpellDataFromHttpBody` (source lines 182-241).  The database
lookup of the rename step is modelled by `refetchId`: the id that the
`fetchDataFromSQL` call at line 188 would leave on the item after the
`"Spell: "` rename (0 when the renamed spell is not in the store).  Returns
the updated item and whether `Save` was invoked. -/
def extractSpellDataFromHttpBody (refetchId : GoStr → ℤ) (i : Item) (body : GoStr) :
    Item × Bool :=
  let i :=
    if i.id ≤ 0 then
      let newName := gs "Spell: " ++ i.name
      { i with name := newName, id := refetchId newName }
    else i
  if 0 < i.id then
    let cm := findClassMatches body
    let lm := findLevelMatches body
    if cm ≠ [] ∧ lm ≠ [] then
      let i :=
        match findImageSrc body with
        | some src => { i with imageSrc := trimL src }
        | none => i
      let stat : Statistic :=
        ⟨gs "CLASS", none, upperL (trimL (classAbbrev (buildClasses cm lm)))⟩
      ({ i with statistics := [stat] }, true)
    else (i, false)
  else (i, false)

/-!
The resolver: `FetchData`, `fetchDataFromSQL` and `fetchDataFromWiki` of
`t-item.go` (lines 44-125), and the item-page entry point
`extractItemDataFromHttpResponse` (lines 128-179).  The store and the HTTP
transport are modelled as values: the rows a query returns are passed in,
and the fetched body is `Option GoStr` with `none` for a transport error
(in Go: `http.Get` returned a non-nil error and a nil `*http.Response`).
-/

/-- One row of the items-LEFT-JOIN-statistics query of `fetchDataFromSQL`
(source lines 91-98): `statCode`/`statValue` are NULL (`none`) when the
item row has no statistics. -/
structure SQLRow where
  id : ℤ
  name : GoStr
  displayName : GoStr
  statCode : Option GoStr
  statValue : Option ℚ
deriving DecidableEq

/-- The per-row update of the scan loop at source lines 101-115: `hasStat`
is set when the row's statistic columns are not both NULL. -/
def rowHasStat (r : SQLRow) : Bool :=
  !(decide (r.statCode = none) && decide (r.statValue = none))

/-- `fetchDataFromSQL` (source lines 82-125): scans the returned rows (or
`none` when the query yielded no row set), adopting each positive row id
and reporting whether any row carried a non-NULL statistic column. -/
def fetchDataFromSQL (i : Item) (rows : Option (List SQLRow)) : Item × Bool :=
  match rows with
  | none => (i, false)
  | some rs =>
    let j := rs.foldl (fun acc r => if 0 < r.id then { acc with id := r.id } else acc) i
    (j, rs.any rowHasStat)

/-- `extractItemDataFromHttpResponse` (source lines 128-179).  The
accidental-spell check (lines 133-144) and the marker check (line 145) are
embedded; the interior of the item branch (lines 147-177: index-arithmetic
slicing of the `itemData` block, line splitting, classification via
`assignStatistic`, then `Save`) is the page segmenter of spec section 4.1,
on which no claim depends, and is abstracted as the collaborator
`itemBranch` (returning `none` for a panic, or the item and whether it was
saved). -/
def extractItemDataFromHttpResponse (refetchId : GoStr → ℤ)
    (itemBranch : Item → GoStr → Option (Item × Bool))
    (i : Item) (body : GoStr) : Option (Item × Bool) :=
  if findClassMatches body ≠ [] ∧ findLevelMatches body ≠ [] then
    some (extractSpellDataFromHttpBody refetchId i body)
  else if ciContains body (gs "itemData") ∧ ciContains body (gs "itembotbg") then
    itemBranch i body
  else
    some (i, false)

/-- `fetchDataFromWiki` (source lines 56-77).  `titleCase` models the
external `TitleCase` collaborator; `httpBody` is the transport result.  On
a transport error the code logs and then evaluates `resp.Body` on the nil
response at the `defer` statement, a nil-pointer dereference: `none` (a
crash).  Otherwise the body is dispatched to the item or spell extractor
depending on a `spell:` token in the item's names. -/
def fetchDataFromWiki (titleCase : GoStr → Bool → GoStr) (refetchId : GoStr → ℤ)
    (itemBranch : Item → GoStr → Option (Item × Bool))
    (httpBody : Option GoStr) (i : Item) : Option (Item × Bool) :=
  let _uriString :=
    titleCase (trimL (replaceAllL (gs "spell:") [] (lowerL i.name))) true
  match httpBody with
  | none => none
  | some body =>
    if ¬ciContains i.name (gs "spell:") = true ∧ ¬ciContains i.displayName (gs "spell:") = true then
      extractItemDataFromHttpResponse refetchId itemBranch i body
    else
      some (extractSpellDataFromHttpBody refetchId i body)

/-- Terminal states of the resolver pipeline of spec section 4.4. -/
inductive PipeState where
  | found
  | persisted
  | discarded
  | crashed
deriving DecidableEq

/-- Observability record for one resolution: which collaborators ran and
the terminal state reached. -/
structure FetchTrace where
  fetcherInvoked : Bool
  persisterInvoked : Bool
  state : PipeState
deriving DecidableEq

/-- `FetchData` (source lines 44-53): set the display name, query the
store, and only on a miss go to the wiki.  The trace records that the
store-hit branch touches neither the fetcher nor the persister. -/
def FetchData (titleCase : GoStr → Bool → GoStr) (rows : Option (List SQLRow))
    (refetchId : GoStr → ℤ) (itemBranch : Item → GoStr → Option (Item × Bool))
    (httpBody : Option GoStr) (i : Item) : Option (Item × FetchTrace) :=
  let i1 := { i with displayName := titleCase i.name true }
  let sqlResult := fetchDataFromSQL i1 rows
  if sqlResult.2 then some (sqlResult.1, ⟨false, false, .found⟩)
  else
    match fetchDataFromWiki titleCase refetchId itemBranch httpBody sqlResult.1 with
    | none => none
    | some (j, saved) =>
      some (j, ⟨true, saved, if saved then .persisted else .discarded⟩)

/-!
The persistence upserter: `saveEffects` of `t-item.go` (lines 341-410).
The store is modelled explicitly: an `effects` table, an `item_effects`
link table, and the auto-increment counter the next `INSERT` will use.
-/

/-- A row of the `effects` table. -/
structure EffectRow where
  id : ℤ
  name : GoStr
  uri : GoStr
deriving DecidableEq

/-- A row of the `item_effects` link table. -/
structure ItemEffectRow where
  itemId : ℤ
  effectId : ℤ
  restriction : GoStr
deriving DecidableEq

/-- The effect-related store state. -/
structure EffectsDB where
  effects : List EffectRow
  itemEffects : List ItemEffectRow
  nextId : ℤ
deriving DecidableEq

/-- One iteration of the `saveEffects` loop (source lines 343-408) for one
effect: skip it unless both name and uri are present; otherwise select the
effect rows with that name (the scan leaves the last matching id in
`effectId`), link the existing row if one exists, else insert the effect
(adopting the generated id when positive) and link the new row. -/
def saveEffectStep (id : ℤ) (db : EffectsDB) (e : Effect) : EffectsDB :=
  if e.name ≠ [] ∧ e.uri ≠ [] then
    match (db.effects.filter fun row => row.name == e.name).getLast? with
    | some row =>
      { db with itemEffects := db.itemEffects ++ [⟨id, row.id, e.restriction⟩] }
    | none =>
      let newId := db.nextId
      let db1 : EffectsDB :=
        { db with
          effects := db.effects ++ [⟨newId, e.name, e.uri⟩]
          nextId := db.nextId + 1 }
      if 0 < newId then
        { db1 with itemEffects := db1.itemEffects ++ [⟨id, newId, e.restriction⟩] }
      else db1
  else db

/-- `saveEffects` (source lines 341-410): process the item's effects in
order against the store. -/
def saveEffects (db : EffectsDB) (id : ℤ) (effects : List Effect) : EffectsDB :=
  effects.foldl (saveEffectStep id) db

/-!
Claim theorems for the text classifier.
-/

/-- C1 counterexample: the claim says a trailing percent sign is stripped
before parsing for every numeric-rule line, so `"Haste: +15%"` would store
the positive value 15.  The code strips the percent sign only in the final
`else if` (no sign character present): with the leading `+` the token
becomes `"15%"`, the parse fails, and the stored value is NULL, not 15. -/
theorem assignStatistic_percent_with_sign_unparsed :
    assignStatistic item0 (gs "Haste: +15%") =
      some { item0 with statistics := [⟨gs "HASTE", none, []⟩] } := by
  decide

/-- C1 amended: for numeric-rule lines, a leading `+` yields the positive
parsed value and a leading `-` yields the negated magnitude, while a
trailing `%` is stripped before parsing only when the token carries neither
sign character; in particular `"STR: -5"` stores -5, `"STR: +5"` stores 5,
and `"Haste: 15%"` stores 15. -/
theorem assignStatistic_sign_examples :
    assignStatistic item0 (gs "STR: -5") =
      some { item0 with statistics := [⟨gs "STR", some (-5), []⟩] } ∧
    assignStatistic item0 (gs "STR: +5") =
      some { item0 with statistics := [⟨gs "STR", some 5, []⟩] } ∧
    assignStatistic item0 (gs "Haste: 15%") =
      some { item0 with statistics := [⟨gs "HASTE", some 15, []⟩] } := by
  refine ⟨?_, ?_, ?_⟩ <;> decide

/-- The labeled-numeric branch never produces an effect. -/
theorem numericBranch_not_eff (part : GoStr) (e : Effect) :
    numericBranch part ≠ LineClass.eff e := by
  unfold numericBranch
  rcases splitOnCharL ':' part with _ | ⟨p0, _ | ⟨p1, rest⟩⟩ <;> simp

/-- C2 counterexample: the claim says every line containing both `Effect:`
and a colon-delimited numeric label must classify as an Effect.  The code
checks the numeric branch before the effect branch, so
`"dmg: 5: Effect: x"` (which contains both tokens) produces the numeric
statistic DMG = 5 and appends no effect at all. -/
theorem assignStatistic_effect_and_numeric_line :
    assignStatistic item0 (gs "dmg: 5: Effect: x") =
      some { item0 with statistics := [⟨gs "DMG", some 5, []⟩] } := by
  decide

/-- C2 amended: the classifier rules are evaluated in the fixed source
order (capacity, affinity, labeled text, labeled numeric, effect) with the
first match winning, but the numeric rule precedes the effect rule: any
line matching a numeric keyword and none of the three earlier guards is
resolved by the numeric branch — no effect is ever appended for it — and in
particular `"dmg: 5: Effect: x"` yields the statistic DMG = 5. -/
theorem assignStatistic_numeric_precedes_effect :
    (∀ (part : GoStr) (i j : Item),
        ciContainsAny part numericKeywords = true →
        ciContainsAny part [gs "size capacity:"] = false →
        ciContainsAny part affinityKeywords = false →
        ciContainsAny part textLabelKeywords = false →
        assignStatistic i part = some j → j.effects = i.effects) ∧
    assignStatistic item0 (gs "dmg: 5: Effect: x") =
      some { item0 with statistics := [⟨gs "DMG", some 5, []⟩] } := by
  constructor
  · intro part i j h4 h1 h2 h3 h
    have hcl : classifyLine part = numericBranch part := by
      simp [classifyLine, h1, h2, h3, h4]
    unfold assignStatistic at h
    split at h
    · obtain rfl := Option.some.inj h
      rfl
    · split at h
      · exact Option.noConfusion h
      · next e heq => exact absurd (hcl.symm.trans heq) (numericBranch_not_eff part e)
      · split at h <;> (obtain rfl := Option.some.inj h; rfl)
  · decide

/-- C2 witness: the general priority statement applied to the concrete line
`"dmg: 5: Effect: x"`. -/
theorem assignStatistic_numeric_precedes_effect_witness :
    ({ item0 with statistics := [⟨gs "DMG", some 5, []⟩]} : Item).effects =
      item0.effects :=
  assignStatistic_numeric_precedes_effect.1 (gs "dmg: 5: Effect: x") item0
    { item0 with statistics := [⟨gs "DMG", some 5, []⟩] }
    (by decide) (by decide) (by decide) (by decide) (by decide)

/-- C4: a line containing the numeric keyword `sv fire` but no colon makes
`strings.Split` return a single fragment, and the read of `parts[1]` at
source line 268 panics with an index-out-of-range runtime error; the
classifier is not total. -/
theorem assignStatistic_sv_fire_panics :
    assignStatistic item0 (gs "sv fire") = none := by
  decide

/-- C9: every statistic that `assignStatistic` adds to an item has a
non-empty code (the guard at source lines 320-324 discards empty codes
before the append), and every row `saveStats` builds from a list of
non-empty-code statistics has a non-empty code. -/
theorem statistics_code_nonempty :
    (∀ (i : Item) (part : GoStr) (j : Item), assignStatistic i part = some j →
        ∀ s ∈ j.statistics, s ∈ i.statistics ∨ s.code ≠ []) ∧
    (∀ (id : ℤ) (stats : List Statistic), (∀ s ∈ stats, s.code ≠ []) →
        ∀ r ∈ saveStats id stats, r.code ≠ []) := by
  constructor
  · intro i part j h s hs
    unfold assignStatistic at h
    split at h
    · obtain rfl := Option.some.inj h
      exact Or.inl hs
    · split at h
      · exact Option.noConfusion h
      · obtain rfl := Option.some.inj h
        exact Or.inl hs
      · next s0 heq =>
        split at h
        · obtain rfl := Option.some.inj h
          rcases List.mem_append.mp hs with h1 | h1
          · exact Or.inl h1
          · obtain rfl := List.mem_singleton.mp h1
            exact Or.inr (by assumption)
        · obtain rfl := Option.some.inj h
          exact Or.inl hs
  · intro id stats hst r hr
    rcases List.mem_map.mp hr with ⟨s, hs, rfl⟩
    exact hst s hs

/-- C9 witness: the invariant applied to the concrete classification of
`"AC: 15"` over a fresh item. -/
theorem statistics_code_nonempty_witness :
    (⟨gs "AC", some 15, []⟩ : Statistic) ∈ item0.statistics ∨
      (⟨gs "AC", some 15, []⟩ : Statistic).code ≠ [] :=
  statistics_code_nonempty.1 item0 (gs "AC: 15")
    { item0 with statistics := [⟨gs "AC", some 15, []⟩] }
    (by decide) ⟨gs "AC", some 15, []⟩ (by decide)

/-- C10: classifying an empty or whitespace-only line returns the item
completely unchanged (the early return at source lines 244-246). -/
theorem assignStatistic_blank_line_frame :
    ∀ (i : Item) (part : GoStr), trimL part = [] → assignStatistic i part = some i := by
  intro i part h
  simp [assignStatistic, h]

/-- C10 witness: the frame property at a concrete whitespace-only line. -/
theorem assignStatistic_blank_line_frame_witness :
    assignStatistic item0 (gs "   ") = some item0 :=
  assignStatistic_blank_line_frame item0 (gs "   ") (by decide)

/-- Helper: when the class scan or the level scan comes up empty, the spell
extractor performs only the conditional rename and reports no save. -/
theorem extractSpell_noop_of_missing (rf : GoStr → ℤ) (i : Item) (body : GoStr)
    (h : findClassMatches body = [] ∨ findLevelMatches body = []) :
    extractSpellDataFromHttpBody rf i body =
      (if i.id ≤ 0 then
        { i with name := gs "Spell: " ++ i.name, id := rf (gs "Spell: " ++ i.name) }
       else i, false) := by
  have hnot : ¬(findClassMatches body ≠ [] ∧ findLevelMatches body ≠ []) := by
    rcases h with h | h <;> simp [h]
  unfold extractSpellDataFromHttpBody
  simp only [hnot, if_false, ite_self]

/-- C6 counterexample: the claim says a body with the wizard token and
`Level 52` yields a CLASS statistic with value `"WIZ (52)"` plus a LEVEL
statistic.  The code builds exactly one statistic: no statistic has code
`LEVEL`, and none carries the text `"WIZ (52)"` (the built text keeps a
trailing comma). -/
theorem extractSpell_no_level_statistic :
    ((extractSpellDataFromHttpBody (fun _ => 0) { item0 with id := 5 }
        (gs ">wizard< Level 52")).1.statistics.all
      fun s => decide (s.code ≠ gs "LEVEL") && decide (s.effect ≠ gs "WIZ (52)")) = true ∧
    (extractSpellDataFromHttpBody (fun _ => 0) { item0 with id := 5 }
        (gs ">wizard< Level 52")).1.statistics.length = 1 := by
  constructor <;> decide

/-- C6 amended: on a successful spell detection the item's statistics are
replaced by a single CLASS statistic whose text pairs each matched class
token, mapped to its three-letter abbreviation, with its paired level in
the form `"ABB (lvl),"`; no LEVEL statistic is produced.  A body containing
`>wizard<` and `Level 52` (and no item markers) yields exactly the
statistic list `[{CLASS, effect:"WIZ (52),"}]`. -/
theorem extractSpell_wizard_level52 :
    extractSpellDataFromHttpBody (fun _ => 0) { item0 with id := 5 }
        (gs ">wizard< Level 52") =
      ({ item0 with id := 5, statistics := [⟨gs "CLASS", none, gs "WIZ (52),"⟩] }, true) := by
  decide

/-- C7: the spell fallback classifies a page as a spell only when both a
class token and a level token are found: if either scan is empty the item's
statistics, effects and image are untouched and no save happens; and
conversely a reported save implies both scans were non-empty. -/
theorem extractSpell_requires_class_and_level :
    (∀ (rf : GoStr → ℤ) (i : Item) (body : GoStr),
        (findClassMatches body = [] ∨ findLevelMatches body = []) →
        (extractSpellDataFromHttpBody rf i body).1.statistics = i.statistics ∧
        (extractSpellDataFromHttpBody rf i body).1.effects = i.effects ∧
        (extractSpellDataFromHttpBody rf i body).1.imageSrc = i.imageSrc ∧
        (extractSpellDataFromHttpBody rf i body).2 = false) ∧
    (∀ (rf : GoStr → ℤ) (i : Item) (body : GoStr),
        (extractSpellDataFromHttpBody rf i body).2 = true →
        findClassMatches body ≠ [] ∧ findLevelMatches body ≠ []) := by
  constructor
  · intro rf i body h
    rw [extractSpell_noop_of_missing rf i body h]
    split <;> exact ⟨rfl, rfl, rfl, rfl⟩
  · intro rf i body h2
    by_contra hne
    have h : findClassMatches body = [] ∨ findLevelMatches body = [] := by tauto
    rw [extractSpell_noop_of_missing rf i body h] at h2
    exact Bool.noConfusion h2

/-- C7 witness: the emptiness property at a body with neither token. -/
theorem extractSpell_requires_class_and_level_witness :
    (extractSpellDataFromHttpBody (fun _ => 0) item0 (gs "hello")).1.statistics =
        item0.statistics ∧
    (extractSpellDataFromHttpBody (fun _ => 0) item0 (gs "hello")).1.effects =
        item0.effects ∧
    (extractSpellDataFromHttpBody (fun _ => 0) item0 (gs "hello")).1.imageSrc =
        item0.imageSrc ∧
    (extractSpellDataFromHttpBody (fun _ => 0) item0 (gs "hello")).2 = false :=
  extractSpell_requires_class_and_level.1 (fun _ => 0) item0 (gs "hello") (by decide)

/-- C3: when the store query returns a row with a non-NULL statistic
column, `FetchData` short-circuits: the result depends only on the rows
(for any transport result, refetch oracle and item branch — so the fetcher
and the persister are never invoked) and the pipeline terminates in the
`found` state with both trace flags false. -/
theorem FetchData_short_circuit :
    ∀ (tc : GoStr → Bool → GoStr) (rf : GoStr → ℤ)
      (ib : Item → GoStr → Option (Item × Bool)) (body : Option GoStr)
      (i : Item) (rs : List SQLRow),
      (∃ r ∈ rs, r.statCode ≠ none ∨ r.statValue ≠ none) →
      FetchData tc (some rs) rf ib body i =
        some ((fetchDataFromSQL { i with displayName := tc i.name true } (some rs)).1,
              ⟨false, false, PipeState.found⟩) := by
  intro tc rf ib body i rs h
  have hany : rs.any rowHasStat = true := by
    apply List.any_eq_true.mpr
    obtain ⟨r, hr, hstat⟩ := h
    refine ⟨r, hr, ?_⟩
    unfold rowHasStat
    rcases hstat with h1 | h1 <;> simp [h1]
  unfold FetchData
  simp [fetchDataFromSQL, hany]

/-- C3 witness: the short-circuit at a concrete row set carrying the
statistic AC = 15. -/
theorem FetchData_short_circuit_witness :
    FetchData (fun s _ => s) (some [⟨1, gs "a", gs "A", some (gs "AC"), some 15⟩])
        (fun _ => 0) (fun j _ => some (j, false)) none item0 =
      some ((fetchDataFromSQL
              { item0 with displayName := (fun (s : GoStr) (_ : Bool) => s) item0.name true }
              (some [⟨1, gs "a", gs "A", some (gs "AC"), some 15⟩])).1,
            ⟨false, false, PipeState.found⟩) :=
  FetchData_short_circuit (fun s _ => s) (fun _ => 0) (fun j _ => some (j, false)) none
    item0 [⟨1, gs "a", gs "A", some (gs "AC"), some 15⟩] (by decide)

/-- C5: a transport-level failure of the page fetch (in Go: `http.Get`
returns an error and a nil response) makes `fetchDataFromWiki` crash — the
deferred `resp.Body.Close()` dereferences the nil response — instead of
degrading to an empty result as the claim states. -/
theorem fetchDataFromWiki_transport_crash :
    fetchDataFromWiki (fun s _ => s) (fun _ => 0) (fun j _ => some (j, false))
      none item0 = none := rfl

/-- C8: persisting two items that each carry a valid effect with the same
name against a store not yet holding that name yields exactly one effect
row with that name and exactly one link row per item, each carrying its
own restriction text and pointing at the single effect row. -/
theorem saveEffects_dedup :
    ∀ (db : EffectsDB) (id1 id2 : ℤ) (n u1 u2 r1 r2 : GoStr),
      n ≠ [] → u1 ≠ [] → u2 ≠ [] → 0 < db.nextId →
      (∀ row ∈ db.effects, row.name ≠ n) →
      ((saveEffects (saveEffects db id1 [⟨n, u1, r1⟩]) id2 [⟨n, u2, r2⟩]).effects.countP
          fun row => row.name == n) = 1 ∧
      (saveEffects (saveEffects db id1 [⟨n, u1, r1⟩]) id2 [⟨n, u2, r2⟩]).itemEffects =
        db.itemEffects ++ [⟨id1, db.nextId, r1⟩, ⟨id2, db.nextId, r2⟩] := by
  intro db id1 id2 n u1 u2 r1 r2 hn hu1 hu2 hnext hno
  have hfilter : (db.effects.filter fun row => row.name == n) = [] := by
    apply List.filter_eq_nil_iff.mpr
    intro row hrow
    simp [hno row hrow]
  have step1 : saveEffects db id1 [⟨n, u1, r1⟩] =
      { effects := db.effects ++ [⟨db.nextId, n, u1⟩],
        itemEffects := db.itemEffects ++ [⟨id1, db.nextId, r1⟩],
        nextId := db.nextId + 1 } := by
    simp [saveEffects, saveEffectStep, hn, hu1, hfilter, hnext]
  have hfilter2 :
      ((db.effects ++ [(⟨db.nextId, n, u1⟩ : EffectRow)]).filter fun row => row.name == n) =
        [(⟨db.nextId, n, u1⟩ : EffectRow)] := by
    simp [List.filter_append, hfilter]
  have step2 : saveEffects (saveEffects db id1 [⟨n, u1, r1⟩]) id2 [⟨n, u2, r2⟩] =
      { effects := db.effects ++ [⟨db.nextId, n, u1⟩],
        itemEffects := db.itemEffects ++ [⟨id1, db.nextId, r1⟩, ⟨id2, db.nextId, r2⟩],
        nextId := db.nextId + 1 } := by
    rw [step1]
    simp [saveEffects, saveEffectStep, hn, hu2, hfilter2]
  rw [step2]
  constructor
  · simp [List.countP_append, List.countP_eq_length_filter, hfilter]
  · rfl

/-- C8 witness: the dedup property at a concrete pair of items sharing the
effect name Haste. -/
theorem saveEffects_dedup_witness :
    ((saveEffects (saveEffects ⟨[], [], 1⟩ 7 [⟨gs "Haste", gs "/wiki/Haste", gs "ra"⟩]) 8
        [⟨gs "Haste", gs "/wiki/Haste2", gs "rb"⟩]).effects.countP
      fun row => row.name == gs "Haste") = 1 ∧
    (saveEffects (saveEffects ⟨[], [], 1⟩ 7 [⟨gs "Haste", gs "/wiki/Haste", gs "ra"⟩]) 8
        [⟨gs "Haste", gs "/wiki/Haste2", gs "rb"⟩]).itemEffects =
      ([] : List ItemEffectRow) ++ [⟨7, 1, gs "ra"⟩, ⟨8, 1, gs "rb"⟩] :=
  saveEffects_dedup ⟨[], [], 1⟩ 7 8 (gs "Haste") (gs "/wiki/Haste") (gs "/wiki/Haste2")
    (gs "ra") (gs "rb") (by decide) (by decide) (by decide) (by decide) (by decide)
